import Mathlib

/-!
Verification of the `bevy_spacetimedb` event bridge.

Shallow embedding of the repository's core:
* `src/bevy_spacetimedb/src/tables.rs` — the type-keyed sender registry
  (`message_senders`), the get-or-create channel factory
  (`map.entry(type_id).or_insert_with(...)`), and the table-event routers
  (`on_insert`, `on_delete`, `on_update`, `on_insert_update`,
  `on_insert_without_pk`, `on_delete_without_pk`,
  `add_partial_table`, `add_partial_table_without_pk`).
* `src/macros/src/lib.rs` — the reducer-result callback generated by
  `register_reducer_message_derive`.
* `src/bevy_spacetimedb/src/plugin.rs` — which stored registration closures
  `Plugin::build` and `connect_with_token` invoke.

Rust `TypeId`s of `InsertMessage<T> / DeleteMessage<T> / UpdateMessage<T> /
InsertUpdateMessage<T>` are modelled as a pair of a table identifier and a
message kind; rows, reducer events and payloads are modelled as `Nat`;
`std::sync::mpsc` channels are modelled as buffers with a receiver-liveness
flag (a send succeeds exactly when the receiver is still alive, matching
`Sender::send` failing exactly when the `Receiver` was dropped).
-/

namespace Stdb

/-- The message kind a channel carries, distinguishing the four generic
message wrappers of `messages.rs` plus the reducer-result wrapper. -/
inductive MsgKind where
  | insert
  | delete
  | update
  | insertUpdate
  | reducerResult
deriving DecidableEq

/-- Models `std::any::TypeId` of a concrete message type such as
`InsertMessage<T::Message>`: the table (type parameter) together with the
wrapper kind. Distinct wrappers of the same table are distinct keys. -/
structure TypeKey where
  table : Nat
  kind : MsgKind
deriving DecidableEq

/-- Models the `Box<dyn Any + Send + Sync>` stored in `message_senders`:
a channel sender whose concrete type (`Sender<...>` of `tag`) is erased. -/
structure ErasedSender where
  tag : TypeKey
  chan : Nat
deriving DecidableEq

/-- The messages of `messages.rs` that flow through table / reducer channels.
Rows, reducer events and payloads are `Nat`. -/
inductive Msg where
  | insertMsg (event row : Nat)
  | deleteMsg (event row : Nat)
  | updateMsg (event old new : Nat)
  | insertUpdateMsg (event : Nat) (old : Option Nat) (new : Nat)
  | reducerResultMsg (event payload : Nat)
deriving DecidableEq

/-- One `std::sync::mpsc` channel: the in-flight buffer plus whether the
receiving half still exists (a send fails exactly when it does not). -/
structure Channel where
  buf : List Msg
  receiver_alive : Bool
deriving DecidableEq

/-- Trace events recording the order of the factory's side effects inside
`or_insert_with` (`tables.rs` lines 184-193): channel creation,
`app.add_message_channel(recv)`, storing the boxed sender in the map, and
the cloned sender being handed back to the router. -/
inductive Ev where
  | channelCreated (c : Nat)
  | receiverRegistered (c : Nat)
  | senderStored (k : TypeKey) (c : Nat)
  | senderObtained (k : TypeKey) (c : Nat)
deriving DecidableEq

/-- The body of a callback installed on the external table subscription:
which message it constructs when its hook fires.
`sendInsUpdOld` / `sendInsUpdNew` are the two closures installed by
`on_insert_update` on the `on_update` / `on_insert` hooks respectively. -/
inductive CallbackBody where
  | sendInsert
  | sendDelete
  | sendUpdate
  | sendInsUpdOld
  | sendInsUpdNew
deriving DecidableEq

/-- A callback installed via `T::table_accessor(db).on_insert/on_delete/on_update`:
the table it listens on, what it sends, and the channel it sends into. -/
structure Callback where
  table : Nat
  body : CallbackBody
  chan : Nat
deriving DecidableEq

/-- `TableMessages` (`tables.rs` lines 50-63): which messages to register
for a table with a primary key. -/
structure TableMessages where
  insert : Bool
  update : Bool
  delete : Bool
deriving DecidableEq

/-- `TableMessages::all` (`tables.rs` lines 67-73). -/
def TableMessages.all : TableMessages :=
  { insert := true, update := true, delete := true }

/-- `TableMessages::no_update` (`tables.rs` lines 75-81). -/
def TableMessages.no_update : TableMessages :=
  { insert := true, update := false, delete := true }

/-- `TableMessagesWithoutPrimaryKey` (`tables.rs` lines 87-92): for a table
without a primary key only insert and delete exist; the struct has no
update field at all. -/
structure TableMessagesWithoutPrimaryKey where
  insert : Bool
  delete : Bool
deriving DecidableEq

/-- `TableMessagesWithoutPrimaryKey::all` (`tables.rs` lines 96-101). -/
def TableMessagesWithoutPrimaryKey.all : TableMessagesWithoutPrimaryKey :=
  { insert := true, delete := true }

/-- The bridge state: the channels created so far (id, buffer, liveness),
the receivers registered with the Bevy app (`add_message_channel`), the
`message_senders` map of `StdbPlugin`, the callbacks installed on the
external subscription, and the event trace. -/
structure AppState where
  next_chan : Nat
  channels : List (Nat × Channel)
  app_receivers : List Nat
  message_senders : List (TypeKey × ErasedSender)
  callbacks : List Callback
  trace : List Ev
deriving DecidableEq

/-- The state of a freshly built plugin: nothing created yet. -/
def init : AppState :=
  { next_chan := 0, channels := [], app_receivers := [],
    message_senders := [], callbacks := [], trace := [] }

/-- Lookup in the `message_senders` map (`HashMap::entry` lookup). -/
def findSender : List (TypeKey × ErasedSender) → TypeKey → Option ErasedSender
  | [], _ => none
  | (k', es) :: rest, k => if k' = k then some es else findSender rest k

/-- Lookup of a channel by id. -/
def findChan : List (Nat × Channel) → Nat → Option Channel
  | [], _ => none
  | (c', ch) :: rest, c => if c' = c then some ch else findChan rest c

/-- Update the channel with the given id (channel ids are allocated
sequentially, so at most one entry matches). -/
def setChan (chs : List (Nat × Channel)) (c : Nat) (f : Channel → Channel) :
    List (Nat × Channel) :=
  chs.map fun p => if p.1 = c then (p.1, f p.2) else p

/-- The factory (`tables.rs` lines 184-190 and its five clones):
`map.entry(type_id).or_insert_with(|| { let (send, recv) = channel();
app.add_message_channel(recv); Box::new(send) })`. On a hit the closure is
not invoked and the stored erased sender is returned; on a miss a fresh
channel is created, its receiver is registered with the app, and the boxed
sender is stored under the key and returned. -/
def getOrCreateSender (s : AppState) (k : TypeKey) : AppState × ErasedSender :=
  match findSender s.message_senders k with
  | some es => (s, es)
  | none =>
    let c := s.next_chan
    let es : ErasedSender := ⟨k, c⟩
    ({ s with
        next_chan := c + 1,
        channels := s.channels ++ [(c, ⟨[], true⟩)],
        app_receivers := s.app_receivers ++ [c],
        message_senders := s.message_senders ++ [(k, es)],
        trace := s.trace ++
          [.channelCreated c, .receiverRegistered c, .senderStored k c] },
      es)

/-- `Box<dyn Any>::downcast_ref`: succeeds exactly when the
stored sender's concrete type equals the requested one. -/
def downcastSender (es : ErasedSender) (k : TypeKey) : Option Nat :=
  if es.tag = k then some es.chan else none

/-- `.expect("Sender type mismatch")`: `Except.error` models the panic. -/
def expectSender : Option Nat → Except String Nat
  | some c => .ok c
  | none => .error "Sender type mismatch"

/-- `StdbPlugin::on_insert` (`tables.rs` lines 175-204): get or create the
channel keyed by `InsertMessage<T::Message>`, downcast and clone the stored
sender (panicking on a type mismatch), then install on the table's
`on_insert` hook a callback that sends an `InsertMessage`. -/
def on_insert (t : Nat) (s : AppState) : Except String AppState :=
  let k : TypeKey := ⟨t, .insert⟩
  let p := getOrCreateSender s k
  match expectSender (downcastSender p.2 k) with
  | .error e => .error e
  | .ok c =>
    .ok { p.1 with
      trace := p.1.trace ++ [.senderObtained k c],
      callbacks := p.1.callbacks ++ [⟨t, .sendInsert, c⟩] }

/-- `StdbPlugin::on_delete` (`tables.rs` lines 207-235): as `on_insert`,
for the channel keyed by `DeleteMessage<T::Message>` and the `on_delete`
hook. -/
def on_delete (t : Nat) (s : AppState) : Except String AppState :=
  let k : TypeKey := ⟨t, .delete⟩
  let p := getOrCreateSender s k
  match expectSender (downcastSender p.2 k) with
  | .error e => .error e
  | .ok c =>
    .ok { p.1 with
      trace := p.1.trace ++ [.senderObtained k c],
      callbacks := p.1.callbacks ++ [⟨t, .sendDelete, c⟩] }

/-- `StdbPlugin::on_update` (`tables.rs` lines 238-267): as `on_insert`,
for the channel keyed by `UpdateMessage<T::Message>` and the `on_update`
hook. -/
def on_update (t : Nat) (s : AppState) : Except String AppState :=
  let k : TypeKey := ⟨t, .update⟩
  let p := getOrCreateSender s k
  match expectSender (downcastSender p.2 k) with
  | .error e => .error e
  | .ok c =>
    .ok { p.1 with
      trace := p.1.trace ++ [.senderObtained k c],
      callbacks := p.1.callbacks ++ [⟨t, .sendUpdate, c⟩] }

/-- `StdbPlugin::on_insert_update` (`tables.rs` lines 270-309): one channel
keyed by `InsertUpdateMessage<T::Message>`, with two callbacks cloned from
the same sender: one on the `on_update` hook (sending `old = Some(old)`),
installed first, and one on the `on_insert` hook (sending `old = None`). -/
def on_insert_update (t : Nat) (s : AppState) : Except String AppState :=
  let k : TypeKey := ⟨t, .insertUpdate⟩
  let p := getOrCreateSender s k
  match expectSender (downcastSender p.2 k) with
  | .error e => .error e
  | .ok c =>
    .ok { p.1 with
      trace := p.1.trace ++ [.senderObtained k c],
      callbacks := p.1.callbacks ++ [⟨t, .sendInsUpdOld, c⟩, ⟨t, .sendInsUpdNew, c⟩] }

/-- `StdbPlugin::on_insert_without_pk` (`tables.rs` lines 312-341):
textually the same body as `on_insert`, for tables without a primary key
(same `InsertMessage` type key). -/
def on_insert_without_pk (t : Nat) (s : AppState) : Except String AppState :=
  let k : TypeKey := ⟨t, .insert⟩
  let p := getOrCreateSender s k
  match expectSender (downcastSender p.2 k) with
  | .error e => .error e
  | .ok c =>
    .ok { p.1 with
      trace := p.1.trace ++ [.senderObtained k c],
      callbacks := p.1.callbacks ++ [⟨t, .sendInsert, c⟩] }

/-- `StdbPlugin::on_delete_without_pk` (`tables.rs` lines 344-372):
textually the same body as `on_delete`. -/
def on_delete_without_pk (t : Nat) (s : AppState) : Except String AppState :=
  let k : TypeKey := ⟨t, .delete⟩
  let p := getOrCreateSender s k
  match expectSender (downcastSender p.2 k) with
  | .error e => .error e
  | .ok c =>
    .ok { p.1 with
      trace := p.1.trace ++ [.senderObtained k c],
      callbacks := p.1.callbacks ++ [⟨t, .sendDelete, c⟩] }

/-- The common body of the six router functions: get or create the channel
for key `(t, κ)`, downcast the stored sender, and install one callback per
body. Each router function is definitionally an instance of this shape. -/
def on_key (t : Nat) (κ : MsgKind) (bodies : List CallbackBody) (s : AppState) :
    Except String AppState :=
  let k : TypeKey := ⟨t, κ⟩
  let p := getOrCreateSender s k
  match expectSender (downcastSender p.2 k) with
  | .error e => .error e
  | .ok c =>
    .ok { p.1 with
      trace := p.1.trace ++ [.senderObtained k c],
      callbacks := p.1.callbacks ++ bodies.map fun b => ⟨t, b, c⟩ }

/-- Sequencing of two panicking computations: the second runs only when the
first did not panic (the `;` between the statements of the `register`
closure). -/
def exSeq (r : Except String AppState)
    (f : AppState → Except String AppState) : Except String AppState :=
  match r with
  | .error e => .error e
  | .ok s => f s

/-- The `register` closure built by `StdbPlugin::add_partial_table`
(`tables.rs` lines 120-133), executed at plugin build / delayed connect:
wire insert, delete, update, and — exactly when both update and insert are
requested — the combined insert-or-update channel. -/
def register_table (t : Nat) (m : TableMessages) (s : AppState) :
    Except String AppState :=
  exSeq (if m.insert then on_insert t s else .ok s) fun s1 =>
    exSeq (if m.delete then on_delete t s1 else .ok s1) fun s2 =>
      exSeq (if m.update then on_update t s2 else .ok s2) fun s3 =>
        if m.update && m.insert then on_insert_update t s3 else .ok s3

/-- `StdbPlugin::add_table` (`tables.rs` lines 110-112): all messages. -/
def add_table (t : Nat) (s : AppState) : Except String AppState :=
  register_table t TableMessages.all s

/-- The `register` closure built by
`StdbPlugin::add_partial_table_without_pk` (`tables.rs` lines 157-164):
only insert and delete can be wired. -/
def register_table_without_pk (t : Nat) (m : TableMessagesWithoutPrimaryKey)
    (s : AppState) : Except String AppState :=
  exSeq (if m.insert then on_insert_without_pk t s else .ok s) fun s1 =>
    if m.delete then on_delete_without_pk t s1 else .ok s1

/-- `StdbPlugin::add_table_without_pk` (`tables.rs` lines 145-149). -/
def add_table_without_pk (t : Nat) (s : AppState) : Except String AppState :=
  register_table_without_pk t TableMessagesWithoutPrimaryKey.all s

/-- Modelled from the spec: the reducer-result router registration. The
repository's `reducers.rs` (re-exported by `lib.rs` but not under `src/`)
is the missing code; per spec section 4.4 it is the "symmetric
single-channel case" — one channel per distinct result-payload type,
obtained through the same get-or-create factory, with the completion
callback attached to the external reducer hook (not to a table hook, so no
table callback is installed). -/
def register_reducer (rid : Nat) (s : AppState) : Except String AppState :=
  on_key rid .reducerResult [] s

/-- `Sender::send`: append to the channel's buffer when the receiver is
still alive, returning the success flag (`Result::is_ok`); when the
receiver is gone the message is dropped and the flag is `false`. -/
def sendMsg (s : AppState) (c : Nat) (m : Msg) : AppState × Bool :=
  match findChan s.channels c with
  | some ch =>
    if ch.receiver_alive then
      ({ s with channels := setChan s.channels c fun ch => { ch with buf := ch.buf ++ [m] } },
       true)
    else (s, false)
  | none => (s, false)

/-- `let _ = sender.send(message);` — the table callbacks discard the send
result (`tables.rs` lines 200, 231, 263, 296, 305, 337, 368). -/
def trySend (s : AppState) (c : Nat) (m : Msg) : AppState :=
  (sendMsg s c m).1

/-- The message a callback on the `on_insert` hook constructs
(`tables.rs` lines 195-201 and 299-306). -/
def msgOnInsert (b : CallbackBody) (ev row : Nat) : Option Msg :=
  match b with
  | .sendInsert => some (.insertMsg ev row)
  | .sendInsUpdNew => some (.insertUpdateMsg ev none row)
  | _ => none

/-- The message a callback on the `on_delete` hook constructs
(`tables.rs` lines 226-232). -/
def msgOnDelete (b : CallbackBody) (ev row : Nat) : Option Msg :=
  match b with
  | .sendDelete => some (.deleteMsg ev row)
  | _ => none

/-- The message a callback on the `on_update` hook constructs
(`tables.rs` lines 257-264 and 290-297). -/
def msgOnUpdate (b : CallbackBody) (ev old new : Nat) : Option Msg :=
  match b with
  | .sendUpdate => some (.updateMsg ev old new)
  | .sendInsUpdOld => some (.insertUpdateMsg ev (some old) new)
  | _ => none

/-- The remote system fires an insert on table `t`: every installed
`on_insert`-hook callback for `t` constructs its message and sends it,
discarding the result. -/
def fireInsert (s : AppState) (t ev row : Nat) : AppState :=
  s.callbacks.foldl
    (fun acc cb =>
      if cb.table = t then
        match msgOnInsert cb.body ev row with
        | some m => trySend acc cb.chan m
        | none => acc
      else acc) s

/-- The remote system fires a delete on table `t`. -/
def fireDelete (s : AppState) (t ev row : Nat) : AppState :=
  s.callbacks.foldl
    (fun acc cb =>
      if cb.table = t then
        match msgOnDelete cb.body ev row with
        | some m => trySend acc cb.chan m
        | none => acc
      else acc) s

/-- The remote system fires an update on table `t` with old and new rows. -/
def fireUpdate (s : AppState) (t ev old new : Nat) : AppState :=
  s.callbacks.foldl
    (fun acc cb =>
      if cb.table = t then
        match msgOnUpdate cb.body ev old new with
        | some m => trySend acc cb.chan m
        | none => acc
      else acc) s

/-- Consumer-side teardown: the receiving half of channel `c` is dropped. -/
def dropReceiver (s : AppState) (c : Nat) : AppState :=
  { s with channels := setChan s.channels c fun ch => { ch with receiver_alive := false } }

/-- Whether channel `c` exists and its receiver is still alive. -/
def aliveChan (s : AppState) (c : Nat) : Bool :=
  match findChan s.channels c with
  | some ch => ch.receiver_alive
  | none => false

/-- What a per-tick drain of channel `c` observes: the accumulated buffer,
provided the receiver was registered with the app and still exists. -/
def drainChan (s : AppState) (c : Nat) : List Msg :=
  if c ∈ s.app_receivers then
    match findChan s.channels c with
    | some ch => if ch.receiver_alive then ch.buf else []
    | none => []
  else []

/-- How many copies of message `m` are in flight across all channels. -/
def countMsg (s : AppState) (m : Msg) : Nat :=
  (s.channels.map fun p => ((p.2.buf.filter fun x => x = m).length)).sum

/-- The reducer-result callback generated by `register_reducer_message_derive`
(`src/macros/src/lib.rs` lines 68-81): on completion it constructs
`ReducerResultMessage::new(...)` from the causal event and the payload and
performs `sender.send(...).unwrap()` — `Except.error` models the panic of
`unwrap` on a failed send. -/
def reducer_callback (s : AppState) (c : Nat) (ev payload : Nat) :
    Except String AppState :=
  match sendMsg s c (.reducerResultMsg ev payload) with
  | (s', true) => .ok s'
  | (_, false) => .error "called Result::unwrap on an Err value"

/-- The registration-closure lists held by `StdbPlugin` (`plugin.rs` lines
152-163), with closures identified by position; `delayed_connect` is the
flag set by `with_delayed_connect`. -/
structure PluginRegisters where
  table_registers : List Nat
  reducer_registers : List Nat
  procedure_registers : List Nat
  delayed_connect : Bool
deriving DecidableEq

/-- An invocation of one stored registration closure, tagged by the list it
came from. -/
inductive RegInvoke where
  | table (i : Nat)
  | reducer (i : Nat)
  | procedure (i : Nat)
deriving DecidableEq

/-- `DelayedPluginData` (`plugin.rs` lines 41-52): the data stored for
`connect_with_token`; it carries the table and reducer registers (and the
sender map) but has no field for procedure registers. -/
structure DelayedPluginData where
  table_registers : List Nat
  reducer_registers : List Nat
deriving DecidableEq

/-- What `Plugin::build` (`plugin.rs` lines 268-359) stores for the delayed
path (`plugin.rs` lines 299-304). -/
def delayed_plugin_data (p : PluginRegisters) : DelayedPluginData :=
  ⟨p.table_registers, p.reducer_registers⟩

/-- The stored registration closures `Plugin::build` invokes, in order: in
delayed mode none (it stores config and returns, `plugin.rs` lines 284-307);
otherwise every table register then every reducer register
(`plugin.rs` lines 342-353). -/
def plugin_build_invokes (p : PluginRegisters) : List RegInvoke :=
  if p.delayed_connect then []
  else p.table_registers.map .table ++ p.reducer_registers.map .reducer

/-- The stored registration closures `connect_with_token` invokes
(`plugin.rs` lines 120-132): every stored table register then every stored
reducer register. -/
def connect_with_token_invokes (d : DelayedPluginData) : List RegInvoke :=
  d.table_registers.map .table ++ d.reducer_registers.map .reducer

/-- One observable operation on the bridge: executing a stored table
registration closure (at build / delayed connect), a remote row event
firing the installed callbacks, or consumer-side teardown of a receiver. -/
inductive Step where
  | regTable (t : Nat) (m : TableMessages)
  | regTableNoPk (t : Nat) (m : TableMessagesWithoutPrimaryKey)
  | regReducer (rid : Nat)
  | remoteInsert (t ev row : Nat)
  | remoteUpdate (t ev old new : Nat)
  | remoteDelete (t ev row : Nat)
  | teardown (c : Nat)
deriving DecidableEq

/-- The bridge's step function (an `Except.error` is a panic). -/
def step (s : AppState) : Step → Except String AppState
  | .regTable t m => register_table t m s
  | .regTableNoPk t m => register_table_without_pk t m s
  | .regReducer rid => register_reducer rid s
  | .remoteInsert t ev row => .ok (fireInsert s t ev row)
  | .remoteUpdate t ev old new => .ok (fireUpdate s t ev old new)
  | .remoteDelete t ev row => .ok (fireDelete s t ev row)
  | .teardown c => .ok (dropReceiver s c)

/-- Run a sequence of operations from a state. -/
def run (s : AppState) : List Step → Except String AppState
  | [] => .ok s
  | a :: l =>
    match step s a with
    | .ok s' => run s' l
    | .error e => .error e

/-- The channels whose receivers are registered by the time a trace has been
processed, given those registered before it. -/
def regsAfter : List Ev → List Nat → List Nat
  | [], regs => regs
  | (Ev.receiverRegistered c) :: tr, regs => regsAfter tr (c :: regs)
  | _ :: tr, regs => regsAfter tr regs

/-- A trace is well ordered when every store of a sender into the map and
every hand-out of a sender to a router is preceded by the registration of
that sender's receiver with the app. -/
def goodTrace : List Ev → List Nat → Prop
  | [], _ => True
  | (Ev.receiverRegistered c) :: tr, regs => goodTrace tr (c :: regs)
  | (Ev.senderStored _ c) :: tr, regs => c ∈ regs ∧ goodTrace tr regs
  | (Ev.senderObtained _ c) :: tr, regs => c ∈ regs ∧ goodTrace tr regs
  | _ :: tr, regs => goodTrace tr regs

instance : ∀ (tr : List Ev) (regs : List Nat), Decidable (goodTrace tr regs) :=
  fun tr => by
    induction tr with
    | nil => intro regs; exact .isTrue trivial
    | cons e tr ih =>
      intro regs
      cases e with
      | channelCreated c => exact ih regs
      | receiverRegistered c => exact ih (c :: regs)
      | senderStored k c => exact @instDecidableAnd _ _ inferInstance (ih regs)
      | senderObtained k c => exact @instDecidableAnd _ _ inferInstance (ih regs)

/-- The reachability invariant of the bridge. -/
def Inv (s : AppState) : Prop :=
  ((s.message_senders.map Prod.fst).Nodup) ∧
  (∀ p ∈ s.message_senders, p.2.tag = p.1) ∧
  (∀ p ∈ s.message_senders, p.2.chan ∈ s.app_receivers) ∧
  (∀ p ∈ s.message_senders, Ev.receiverRegistered p.2.chan ∈ s.trace) ∧
  goodTrace s.trace []

lemma on_insert_eq_on_key (t : Nat) (s : AppState) :
    on_insert t s = on_key t .insert [.sendInsert] s := rfl

lemma on_delete_eq_on_key (t : Nat) (s : AppState) :
    on_delete t s = on_key t .delete [.sendDelete] s := rfl

lemma on_update_eq_on_key (t : Nat) (s : AppState) :
    on_update t s = on_key t .update [.sendUpdate] s := rfl

lemma on_insert_update_eq_on_key (t : Nat) (s : AppState) :
    on_insert_update t s = on_key t .insertUpdate [.sendInsUpdOld, .sendInsUpdNew] s := rfl

lemma on_insert_without_pk_eq_on_key (t : Nat) (s : AppState) :
    on_insert_without_pk t s = on_key t .insert [.sendInsert] s := rfl

lemma on_delete_without_pk_eq_on_key (t : Nat) (s : AppState) :
    on_delete_without_pk t s = on_key t .delete [.sendDelete] s := rfl

lemma findSender_append (m m2 : List (TypeKey × ErasedSender)) (k : TypeKey) :
    findSender (m ++ m2) k =
      match findSender m k with
      | some es => some es
      | none => findSender m2 k := by
  induction m with
  | nil => simp [findSender]
  | cons p rest ih =>
    rcases p with ⟨k', es⟩
    by_cases h : k' = k <;> simp [findSender, h, ih]

lemma findSender_mem {m : List (TypeKey × ErasedSender)} {k : TypeKey}
    {es : ErasedSender} (h : findSender m k = some es) : (k, es) ∈ m := by
  induction m with
  | nil => simp [findSender] at h
  | cons p rest ih =>
    rcases p with ⟨k', es'⟩
    by_cases hk : k' = k
    · subst hk
      simp [findSender] at h
      subst h
      exact List.mem_cons_self _ _
    · simp [findSender, hk] at h
      exact List.mem_cons_of_mem _ (ih h)

lemma findSender_eq_none {m : List (TypeKey × ErasedSender)} {k : TypeKey}
    (h : findSender m k = none) : k ∉ m.map Prod.fst := by
  induction m with
  | nil => simp
  | cons p rest ih =>
    rcases p with ⟨k', es'⟩
    by_cases hk : k' = k
    · subst hk; simp [findSender] at h
    · simp only [findSender, if_neg hk] at h
      simp only [List.map_cons, List.mem_cons]
      intro hmem
      rcases hmem with rfl | hm
      · exact hk rfl
      · exact ih h hm

lemma findChan_setChan_self (chs : List (Nat × Channel)) (c : Nat)
    (f : Channel → Channel) :
    findChan (setChan chs c f) c = (findChan chs c).map f := by
  induction chs with
  | nil => rfl
  | cons p rest ih =>
    rcases p with ⟨c', ch⟩
    by_cases h : c' = c
    · subst h
      show findChan ((if c' = c' then (c', f ch) else (c', ch)) :: setChan rest c' f) c'
          = (findChan ((c', ch) :: rest) c').map f
      rw [if_pos rfl]
      simp [findChan]
    · show findChan ((if c' = c then (c', f ch) else (c', ch)) :: setChan rest c f) c
          = (findChan ((c', ch) :: rest) c).map f
      rw [if_neg h]
      simp [findChan, h, ih]

lemma mem_regsAfter_of_mem {x : Nat} {regs : List Nat} (tr : List Ev)
    (h : x ∈ regs) : x ∈ regsAfter tr regs := by
  induction tr generalizing regs with
  | nil => simpa [regsAfter]
  | cons e tr ih =>
    cases e with
    | receiverRegistered c => exact ih (List.mem_cons_of_mem _ h)
    | channelCreated c => exact ih h
    | senderStored k c => exact ih h
    | senderObtained k c => exact ih h

lemma mem_regsAfter_of_registered {c : Nat} {tr : List Ev} (regs : List Nat)
    (h : Ev.receiverRegistered c ∈ tr) : c ∈ regsAfter tr regs := by
  induction tr generalizing regs with
  | nil => simp at h
  | cons e tr ih =>
    rcases List.mem_cons.mp h with he | he
    · subst he
      exact mem_regsAfter_of_mem tr (List.mem_cons_self _ _)
    · cases e with
      | receiverRegistered c' => exact ih _ he
      | channelCreated c' => exact ih _ he
      | senderStored k c' => exact ih _ he
      | senderObtained k c' => exact ih _ he

lemma goodTrace_append (tr tr2 : List Ev) (regs : List Nat) :
    goodTrace (tr ++ tr2) regs ↔
      goodTrace tr regs ∧ goodTrace tr2 (regsAfter tr regs) := by
  induction tr generalizing regs with
  | nil => simp [goodTrace, regsAfter]
  | cons e tr ih =>
    cases e with
    | receiverRegistered c => simpa [goodTrace, regsAfter] using ih (c :: regs)
    | channelCreated c => simpa [goodTrace, regsAfter] using ih regs
    | senderStored k c =>
      simp [goodTrace, regsAfter, ih regs, and_assoc]
    | senderObtained k c =>
      simp [goodTrace, regsAfter, ih regs, and_assoc]

lemma getOrCreateSender_found {s : AppState} {k : TypeKey} {es : ErasedSender}
    (hf : findSender s.message_senders k = some es) :
    getOrCreateSender s k = (s, es) := by
  simp [getOrCreateSender, hf]

lemma getOrCreateSender_missing {s : AppState} {k : TypeKey}
    (hf : findSender s.message_senders k = none) :
    getOrCreateSender s k =
      ({ s with
          next_chan := s.next_chan + 1,
          channels := s.channels ++ [(s.next_chan, ⟨[], true⟩)],
          app_receivers := s.app_receivers ++ [s.next_chan],
          message_senders := s.message_senders ++ [(k, ⟨k, s.next_chan⟩)],
          trace := s.trace ++
            [.channelCreated s.next_chan, .receiverRegistered s.next_chan,
             .senderStored k s.next_chan] },
        ⟨k, s.next_chan⟩) := by
  simp [getOrCreateSender, hf]

lemma on_key_found {t : Nat} {κ : MsgKind} (bodies : List CallbackBody)
    {s : AppState} {es : ErasedSender}
    (hf : findSender s.message_senders ⟨t, κ⟩ = some es)
    (ht : es.tag = ⟨t, κ⟩) :
    on_key t κ bodies s = .ok
      { s with
        trace := s.trace ++ [.senderObtained ⟨t, κ⟩ es.chan],
        callbacks := s.callbacks ++ bodies.map fun b => ⟨t, b, es.chan⟩ } := by
  simp [on_key, getOrCreateSender_found hf, downcastSender, ht, expectSender]

lemma on_key_missing {t : Nat} {κ : MsgKind} (bodies : List CallbackBody)
    {s : AppState}
    (hf : findSender s.message_senders ⟨t, κ⟩ = none) :
    on_key t κ bodies s = .ok
      { next_chan := s.next_chan + 1,
        channels := s.channels ++ [(s.next_chan, ⟨[], true⟩)],
        app_receivers := s.app_receivers ++ [s.next_chan],
        message_senders := s.message_senders ++ [(⟨t, κ⟩, ⟨⟨t, κ⟩, s.next_chan⟩)],
        callbacks := s.callbacks ++ bodies.map fun b => ⟨t, b, s.next_chan⟩,
        trace := s.trace ++
          [.channelCreated s.next_chan, .receiverRegistered s.next_chan,
           .senderStored ⟨t, κ⟩ s.next_chan, .senderObtained ⟨t, κ⟩ s.next_chan] } := by
  simp [on_key, getOrCreateSender_missing hf, downcastSender, expectSender]

lemma on_key_mismatch {t : Nat} {κ : MsgKind} (bodies : List CallbackBody)
    {s : AppState} {es : ErasedSender}
    (hf : findSender s.message_senders ⟨t, κ⟩ = some es)
    (ht : es.tag ≠ ⟨t, κ⟩) :
    on_key t κ bodies s = .error "Sender type mismatch" := by
  simp [on_key, getOrCreateSender_found hf, downcastSender, ht, expectSender]

/-- The later state still resolves every key the earlier state resolved,
to the same stored sender. -/
def SendersExtend (s s' : AppState) : Prop :=
  ∀ k es, findSender s.message_senders k = some es →
    findSender s'.message_senders k = some es

/-- The key `(t, κ)` has a stored sender. -/
def keyPresent (s : AppState) (t : Nat) (κ : MsgKind) : Prop :=
  (findSender s.message_senders ⟨t, κ⟩).isSome = true

/-- The channel of the sender stored under `(t, κ)` (0 when absent). -/
def chanAt (s : AppState) (t : Nat) (κ : MsgKind) : Nat :=
  ((findSender s.message_senders ⟨t, κ⟩).map ErasedSender.chan).getD 0

lemma sendersExtend_refl (s : AppState) : SendersExtend s s := fun _ _ h => h

lemma sendersExtend_trans {s1 s2 s3 : AppState} (h1 : SendersExtend s1 s2)
    (h2 : SendersExtend s2 s3) : SendersExtend s1 s3 :=
  fun k es h => h2 k es (h1 k es h)

lemma keyPresent_of_extend {s s' : AppState} {t : Nat} {κ : MsgKind}
    (he : SendersExtend s s') (hp : keyPresent s t κ) : keyPresent s' t κ := by
  unfold keyPresent at hp ⊢
  cases hq : findSender s.message_senders ⟨t, κ⟩ with
  | none => rw [hq] at hp; simp at hp
  | some es => rw [he _ _ hq]; rfl

lemma chanAt_of_extend {s s' : AppState} {t : Nat} {κ : MsgKind}
    (he : SendersExtend s s') (hp : keyPresent s t κ) :
    chanAt s' t κ = chanAt s t κ := by
  unfold keyPresent at hp
  cases hq : findSender s.message_senders ⟨t, κ⟩ with
  | none => rw [hq] at hp; simp at hp
  | some es => unfold chanAt; rw [hq, he _ _ hq]

lemma on_key_inv (t : Nat) (κ : MsgKind) (bodies : List CallbackBody)
    (s : AppState) (hs : Inv s) :
    ∃ s', on_key t κ bodies s = .ok s' ∧ Inv s' ∧ SendersExtend s s' ∧
      keyPresent s' t κ ∧
      s'.callbacks = s.callbacks ++ bodies.map fun b => ⟨t, b, chanAt s' t κ⟩ := by
  obtain ⟨hnd, htags, hrecv, hrr, hgt⟩ := hs
  cases hf : findSender s.message_senders ⟨t, κ⟩ with
  | some es =>
    have hmem := findSender_mem hf
    have ht : es.tag = ⟨t, κ⟩ := htags _ hmem
    refine ⟨_, on_key_found bodies hf ht, ?_, ?_, ?_, ?_⟩
    · refine ⟨hnd, htags, hrecv, ?_, ?_⟩
      · intro p hp
        exact List.mem_append_left _ (hrr p hp)
      · rw [goodTrace_append]
        refine ⟨hgt, ?_⟩
        simp only [goodTrace]
        exact ⟨mem_regsAfter_of_registered _ (hrr _ hmem), trivial⟩
    · exact fun k es h => h
    · unfold keyPresent; rw [hf]; rfl
    · unfold chanAt; rw [hf]; rfl
  | none =>
    refine ⟨_, on_key_missing bodies hf, ?_, ?_, ?_, ?_⟩
    · refine ⟨?_, ?_, ?_, ?_, ?_⟩
      · have hnotin := findSender_eq_none hf
        simp only [List.map_append, List.map_cons, List.map_nil]
        rw [List.nodup_append]
        exact ⟨hnd, List.nodup_singleton _, by simpa using fun h => hnotin h⟩
      · intro p hp
        rcases List.mem_append.mp hp with h | h
        · exact htags p h
        · simp at h; subst h; rfl
      · intro p hp
        rcases List.mem_append.mp hp with h | h
        · exact List.mem_append_left _ (hrecv p h)
        · simp at h; subst h; simp
      · intro p hp
        rcases List.mem_append.mp hp with h | h
        · exact List.mem_append_left _ (hrr p h)
        · simp at h; subst h; simp
      · rw [goodTrace_append]
        refine ⟨hgt, ?_⟩
        simp [goodTrace]
    · intro k es h
      rw [findSender_append, h]
    · unfold keyPresent
      rw [findSender_append, hf]
      simp [findSender]
    · unfold chanAt
      rw [findSender_append, hf]
      simp [findSender]

lemma exSeq_ok (s : AppState) (f : AppState → Except String AppState) :
    exSeq (.ok s) f = f s := rfl

lemma inv_found_update (t : Nat) (κ : MsgKind) (cbs : List Callback)
    (s : AppState) (hs : Inv s) {es : ErasedSender}
    (hmem : (⟨t, κ⟩, es) ∈ s.message_senders) :
    Inv { s with
      trace := s.trace ++ [.senderObtained ⟨t, κ⟩ es.chan],
      callbacks := s.callbacks ++ cbs } := by
  obtain ⟨hnd, htags, hrecv, hrr, hgt⟩ := hs
  refine ⟨hnd, htags, hrecv, ?_, ?_⟩
  · intro p hp
    exact List.mem_append_left _ (hrr p hp)
  · rw [goodTrace_append]
    refine ⟨hgt, ?_⟩
    simp only [goodTrace]
    exact ⟨mem_regsAfter_of_registered _ (hrr _ hmem), trivial⟩

lemma cond_on_key_inv (b : Bool) (t : Nat) (κ : MsgKind)
    (bodies : List CallbackBody) (s : AppState) (hs : Inv s) :
    ∃ s', (if b then on_key t κ bodies s else .ok s) = .ok s' ∧ Inv s' ∧
      SendersExtend s s' ∧
      (b = true → keyPresent s' t κ) ∧
      s'.callbacks = s.callbacks ++
        (if b then bodies.map fun b' => ⟨t, b', chanAt s' t κ⟩ else []) := by
  cases b with
  | false =>
    exact ⟨s, rfl, hs, sendersExtend_refl s, by simp, by simp⟩
  | true =>
    obtain ⟨s', he, hi, hext, hp, hcb⟩ := on_key_inv t κ bodies s hs
    exact ⟨s', by simpa using he, hi, hext, fun _ => hp, by simpa using hcb⟩

lemma on_key_hit (t : Nat) (κ : MsgKind) (bodies : List CallbackBody)
    (s : AppState) (hs : Inv s) (hp : keyPresent s t κ) :
    ∃ s', on_key t κ bodies s = .ok s' ∧ Inv s' ∧
      s'.channels = s.channels ∧ s'.message_senders = s.message_senders ∧
      s'.next_chan = s.next_chan ∧ s'.app_receivers = s.app_receivers ∧
      s'.callbacks = s.callbacks ++ bodies.map fun b => ⟨t, b, chanAt s t κ⟩ := by
  unfold keyPresent at hp
  cases hf : findSender s.message_senders ⟨t, κ⟩ with
  | none => rw [hf] at hp; simp at hp
  | some es =>
    have hmem := findSender_mem hf
    have ht : es.tag = ⟨t, κ⟩ := hs.2.1 _ hmem
    refine ⟨_, on_key_found bodies hf ht, inv_found_update _ _ _ _ hs hmem,
      rfl, rfl, rfl, rfl, ?_⟩
    unfold chanAt
    rw [hf]
    rfl

lemma cond_on_key_hit (b : Bool) (t : Nat) (κ : MsgKind)
    (bodies : List CallbackBody) (s : AppState) (hs : Inv s)
    (hp : b = true → keyPresent s t κ) :
    ∃ s', (if b then on_key t κ bodies s else .ok s) = .ok s' ∧ Inv s' ∧
      s'.channels = s.channels ∧ s'.message_senders = s.message_senders ∧
      s'.next_chan = s.next_chan ∧ s'.app_receivers = s.app_receivers ∧
      s'.callbacks = s.callbacks ++
        (if b then bodies.map fun b' => ⟨t, b', chanAt s t κ⟩ else []) := by
  cases b with
  | false =>
    exact ⟨s, rfl, hs, rfl, rfl, rfl, rfl, by simp⟩
  | true =>
    obtain ⟨s', he, hi, h1, h2, h3, h4, h5⟩ := on_key_hit t κ bodies s hs (hp rfl)
    exact ⟨s', by simpa using he, hi, h1, h2, h3, h4, by simpa using h5⟩

lemma chanAt_congr {s1 s2 : AppState} (t : Nat) (κ : MsgKind)
    (h : s1.message_senders = s2.message_senders) :
    chanAt s1 t κ = chanAt s2 t κ := by
  unfold chanAt; rw [h]

lemma keyPresent_congr {s1 s2 : AppState} {t : Nat} {κ : MsgKind}
    (h : s1.message_senders = s2.message_senders) (hp : keyPresent s1 t κ) :
    keyPresent s2 t κ := by
  unfold keyPresent at hp ⊢; rw [← h]; exact hp

/-- The callbacks appended by one execution of the `add_partial_table`
register closure, with the channel of each read off from the state `s`. -/
def tableCallbacks (t : Nat) (m : TableMessages) (s : AppState) : List Callback :=
  (if m.insert then [⟨t, .sendInsert, chanAt s t .insert⟩] else []) ++
  (if m.delete then [⟨t, .sendDelete, chanAt s t .delete⟩] else []) ++
  (if m.update then [⟨t, .sendUpdate, chanAt s t .update⟩] else []) ++
  (if m.update && m.insert then
    [⟨t, .sendInsUpdOld, chanAt s t .insertUpdate⟩,
     ⟨t, .sendInsUpdNew, chanAt s t .insertUpdate⟩]
  else [])

lemma register_table_inv (t : Nat) (m : TableMessages) (s : AppState)
    (hs : Inv s) :
    ∃ s', register_table t m s = .ok s' ∧ Inv s' ∧ SendersExtend s s' ∧
      (m.insert = true → keyPresent s' t .insert) ∧
      (m.delete = true → keyPresent s' t .delete) ∧
      (m.update = true → keyPresent s' t .update) ∧
      ((m.update && m.insert) = true → keyPresent s' t .insertUpdate) ∧
      s'.callbacks = s.callbacks ++ tableCallbacks t m s' := by
  obtain ⟨s1, e1, i1, x1, p1, c1⟩ :=
    cond_on_key_inv m.insert t .insert [.sendInsert] s hs
  obtain ⟨s2, e2, i2, x2, p2, c2⟩ :=
    cond_on_key_inv m.delete t .delete [.sendDelete] s1 i1
  obtain ⟨s3, e3, i3, x3, p3, c3⟩ :=
    cond_on_key_inv m.update t .update [.sendUpdate] s2 i2
  obtain ⟨s4, e4, i4, x4, p4, c4⟩ :=
    cond_on_key_inv (m.update && m.insert) t .insertUpdate
      [.sendInsUpdOld, .sendInsUpdNew] s3 i3
  have x14 : SendersExtend s1 s4 := sendersExtend_trans x2 (sendersExtend_trans x3 x4)
  have x24 : SendersExtend s2 s4 := sendersExtend_trans x3 x4
  refine ⟨s4, ?_, i4, sendersExtend_trans x1 x14,
    fun h => keyPresent_of_extend x14 (p1 h),
    fun h => keyPresent_of_extend x24 (p2 h),
    fun h => keyPresent_of_extend x4 (p3 h),
    p4, ?_⟩
  · simp only [register_table, on_insert_eq_on_key, on_delete_eq_on_key,
      on_update_eq_on_key, on_insert_update_eq_on_key]
    rw [e1]
    simp only [exSeq_ok]
    rw [e2]
    simp only [exSeq_ok]
    rw [e3]
    simp only [exSeq_ok]
    rw [e4]
  · have q1 : m.insert = true → chanAt s4 t .insert = chanAt s1 t .insert :=
      fun h => chanAt_of_extend x14 (p1 h)
    have q2 : m.delete = true → chanAt s4 t .delete = chanAt s2 t .delete :=
      fun h => chanAt_of_extend x24 (p2 h)
    have q3 : m.update = true → chanAt s4 t .update = chanAt s3 t .update :=
      fun h => chanAt_of_extend x4 (p3 h)
    rcases m with ⟨mi, mu, md⟩
    cases mi <;> cases mu <;> cases md <;>
      simp_all [tableCallbacks, List.append_assoc]

lemma register_table_hit (t : Nat) (m : TableMessages) (s : AppState)
    (hs : Inv s)
    (hi : m.insert = true → keyPresent s t .insert)
    (hd : m.delete = true → keyPresent s t .delete)
    (hu : m.update = true → keyPresent s t .update)
    (hc : (m.update && m.insert) = true → keyPresent s t .insertUpdate) :
    ∃ s', register_table t m s = .ok s' ∧
      s'.channels = s.channels ∧ s'.message_senders = s.message_senders ∧
      s'.next_chan = s.next_chan ∧ s'.app_receivers = s.app_receivers ∧
      s'.callbacks = s.callbacks ++ tableCallbacks t m s := by
  obtain ⟨s1, e1, i1, ch1, ms1, nc1, ar1, c1⟩ :=
    cond_on_key_hit m.insert t .insert [.sendInsert] s hs hi
  obtain ⟨s2, e2, i2, ch2, ms2, nc2, ar2, c2⟩ :=
    cond_on_key_hit m.delete t .delete [.sendDelete] s1 i1
      (fun h => keyPresent_congr ms1.symm (hd h))
  obtain ⟨s3, e3, i3, ch3, ms3, nc3, ar3, c3⟩ :=
    cond_on_key_hit m.update t .update [.sendUpdate] s2 i2
      (fun h => keyPresent_congr (ms2.trans ms1).symm (hu h))
  obtain ⟨s4, e4, i4, ch4, ms4, nc4, ar4, c4⟩ :=
    cond_on_key_hit (m.update && m.insert) t .insertUpdate
      [.sendInsUpdOld, .sendInsUpdNew] s3 i3
      (fun h => keyPresent_congr (ms3.trans (ms2.trans ms1)).symm (hc h))
  refine ⟨s4, ?_, ch4.trans (ch3.trans (ch2.trans ch1)),
    ms4.trans (ms3.trans (ms2.trans ms1)),
    nc4.trans (nc3.trans (nc2.trans nc1)),
    ar4.trans (ar3.trans (ar2.trans ar1)), ?_⟩
  · simp only [register_table, on_insert_eq_on_key, on_delete_eq_on_key,
      on_update_eq_on_key, on_insert_update_eq_on_key]
    rw [e1]
    simp only [exSeq_ok]
    rw [e2]
    simp only [exSeq_ok]
    rw [e3]
    simp only [exSeq_ok]
    rw [e4]
  · have r1 : ∀ κ, chanAt s1 t κ = chanAt s t κ := fun κ => chanAt_congr t κ ms1
    have r2 : ∀ κ, chanAt s2 t κ = chanAt s t κ :=
      fun κ => chanAt_congr t κ (ms2.trans ms1)
    have r3 : ∀ κ, chanAt s3 t κ = chanAt s t κ :=
      fun κ => chanAt_congr t κ (ms3.trans (ms2.trans ms1))
    rcases m with ⟨mi, mu, md⟩
    cases mi <;> cases mu <;> cases md <;>
      simp_all [tableCallbacks, List.append_assoc]

lemma exSeq_ok_inv {r : Except String AppState}
    {f : AppState → Except String AppState} {s' : AppState}
    (h : exSeq r f = .ok s') : ∃ s1, r = .ok s1 ∧ f s1 = .ok s' := by
  cases r with
  | error e => simp [exSeq] at h
  | ok s1 => exact ⟨s1, rfl, h⟩

lemma on_key_mono {t : Nat} {κ : MsgKind} {bodies : List CallbackBody}
    {s s' : AppState} (h : on_key t κ bodies s = .ok s') :
    (∀ p ∈ s'.message_senders, p ∈ s.message_senders ∨ p.1.kind = κ) ∧
    (∀ cb ∈ s'.callbacks, cb ∈ s.callbacks ∨ cb.body ∈ bodies) := by
  cases hf : findSender s.message_senders ⟨t, κ⟩ with
  | none =>
    rw [on_key_missing bodies hf] at h
    obtain rfl := (Except.ok.inj h).symm
    constructor
    · intro p hp
      rcases List.mem_append.mp hp with hm | hm
      · exact Or.inl hm
      · simp at hm; subst hm; exact Or.inr rfl
    · intro cb hcb
      rcases List.mem_append.mp hcb with hm | hm
      · exact Or.inl hm
      · rcases List.mem_map.mp hm with ⟨b, hb, rfl⟩
        exact Or.inr hb
  | some es =>
    by_cases ht : es.tag = ⟨t, κ⟩
    · rw [on_key_found bodies hf ht] at h
      obtain rfl := (Except.ok.inj h).symm
      constructor
      · exact fun p hp => Or.inl hp
      · intro cb hcb
        rcases List.mem_append.mp hcb with hm | hm
        · exact Or.inl hm
        · rcases List.mem_map.mp hm with ⟨b, hb, rfl⟩
          exact Or.inr hb
    · rw [on_key_mismatch bodies hf ht] at h
      simp at h

lemma register_table_without_pk_inv (t : Nat)
    (m : TableMessagesWithoutPrimaryKey) (s : AppState) (hs : Inv s) :
    ∃ s', register_table_without_pk t m s = .ok s' ∧ Inv s' := by
  obtain ⟨s1, e1, i1, x1, p1, c1⟩ :=
    cond_on_key_inv m.insert t .insert [.sendInsert] s hs
  obtain ⟨s2, e2, i2, x2, p2, c2⟩ :=
    cond_on_key_inv m.delete t .delete [.sendDelete] s1 i1
  refine ⟨s2, ?_, i2⟩
  simp only [register_table_without_pk, on_insert_without_pk_eq_on_key,
    on_delete_without_pk_eq_on_key]
  rw [e1]
  simp only [exSeq_ok]
  rw [e2]

lemma trySend_fields (s : AppState) (c : Nat) (m : Msg) :
    (trySend s c m).message_senders = s.message_senders ∧
    (trySend s c m).app_receivers = s.app_receivers ∧
    (trySend s c m).trace = s.trace ∧
    (trySend s c m).callbacks = s.callbacks := by
  unfold trySend sendMsg
  cases findChan s.channels c with
  | none => exact ⟨rfl, rfl, rfl, rfl⟩
  | some ch =>
    by_cases hb : ch.receiver_alive = true <;> simp [hb]

lemma foldl_fields {β : Type} (f : AppState → β → AppState)
    (hf : ∀ acc b, (f acc b).message_senders = acc.message_senders ∧
      (f acc b).app_receivers = acc.app_receivers ∧
      (f acc b).trace = acc.trace ∧
      (f acc b).callbacks = acc.callbacks) :
    ∀ (L : List β) (acc : AppState),
      (L.foldl f acc).message_senders = acc.message_senders ∧
      (L.foldl f acc).app_receivers = acc.app_receivers ∧
      (L.foldl f acc).trace = acc.trace ∧
      (L.foldl f acc).callbacks = acc.callbacks := by
  intro L
  induction L with
  | nil => exact fun acc => ⟨rfl, rfl, rfl, rfl⟩
  | cons b L ih =>
    intro acc
    obtain ⟨h1, h2, h3, h4⟩ := ih (f acc b)
    obtain ⟨g1, g2, g3, g4⟩ := hf acc b
    exact ⟨h1.trans g1, h2.trans g2, h3.trans g3, h4.trans g4⟩

lemma fireInsert_fields (s : AppState) (t ev row : Nat) :
    (fireInsert s t ev row).message_senders = s.message_senders ∧
    (fireInsert s t ev row).app_receivers = s.app_receivers ∧
    (fireInsert s t ev row).trace = s.trace ∧
    (fireInsert s t ev row).callbacks = s.callbacks := by
  refine foldl_fields _ ?_ s.callbacks s
  intro acc cb
  dsimp only
  by_cases hcb : cb.table = t
  · rw [if_pos hcb]
    cases msgOnInsert cb.body ev row with
    | none => exact ⟨rfl, rfl, rfl, rfl⟩
    | some m => exact trySend_fields acc cb.chan m
  · rw [if_neg hcb]
    exact ⟨rfl, rfl, rfl, rfl⟩

lemma fireDelete_fields (s : AppState) (t ev row : Nat) :
    (fireDelete s t ev row).message_senders = s.message_senders ∧
    (fireDelete s t ev row).app_receivers = s.app_receivers ∧
    (fireDelete s t ev row).trace = s.trace ∧
    (fireDelete s t ev row).callbacks = s.callbacks := by
  refine foldl_fields _ ?_ s.callbacks s
  intro acc cb
  dsimp only
  by_cases hcb : cb.table = t
  · rw [if_pos hcb]
    cases msgOnDelete cb.body ev row with
    | none => exact ⟨rfl, rfl, rfl, rfl⟩
    | some m => exact trySend_fields acc cb.chan m
  · rw [if_neg hcb]
    exact ⟨rfl, rfl, rfl, rfl⟩

lemma fireUpdate_fields (s : AppState) (t ev old new : Nat) :
    (fireUpdate s t ev old new).message_senders = s.message_senders ∧
    (fireUpdate s t ev old new).app_receivers = s.app_receivers ∧
    (fireUpdate s t ev old new).trace = s.trace ∧
    (fireUpdate s t ev old new).callbacks = s.callbacks := by
  refine foldl_fields _ ?_ s.callbacks s
  intro acc cb
  dsimp only
  by_cases hcb : cb.table = t
  · rw [if_pos hcb]
    cases msgOnUpdate cb.body ev old new with
    | none => exact ⟨rfl, rfl, rfl, rfl⟩
    | some m => exact trySend_fields acc cb.chan m
  · rw [if_neg hcb]
    exact ⟨rfl, rfl, rfl, rfl⟩

lemma inv_of_fields {s s' : AppState}
    (hms : s'.message_senders = s.message_senders)
    (har : s'.app_receivers = s.app_receivers)
    (htr : s'.trace = s.trace) (hs : Inv s) : Inv s' := by
  obtain ⟨a, b, c, d, e⟩ := hs
  refine ⟨?_, ?_, ?_, ?_, ?_⟩
  · rw [hms]; exact a
  · rw [hms]; exact b
  · rw [hms, har]; exact c
  · rw [hms, htr]; exact d
  · rw [htr]; exact e

lemma step_ok_inv {s s' : AppState} {a : Step} (hs : Inv s)
    (h : step s a = .ok s') : Inv s' := by
  cases a with
  | regTable t m =>
    obtain ⟨s4, e, i, _⟩ := register_table_inv t m s hs
    rw [show step s (.regTable t m) = register_table t m s from rfl, e] at h
    obtain rfl := Except.ok.inj h
    exact i
  | regTableNoPk t m =>
    obtain ⟨s2, e, i⟩ := register_table_without_pk_inv t m s hs
    rw [show step s (.regTableNoPk t m) = register_table_without_pk t m s from rfl,
      e] at h
    obtain rfl := Except.ok.inj h
    exact i
  | regReducer rid =>
    obtain ⟨s2, e, i, _⟩ := on_key_inv rid .reducerResult [] s hs
    rw [show step s (.regReducer rid) = register_reducer rid s from rfl,
      show register_reducer rid s = on_key rid .reducerResult [] s from rfl,
      e] at h
    obtain rfl := Except.ok.inj h
    exact i
  | remoteInsert t ev row =>
    obtain rfl := Except.ok.inj h
    obtain ⟨f1, f2, f3, _⟩ := fireInsert_fields s t ev row
    exact inv_of_fields f1 f2 f3 hs
  | remoteUpdate t ev o n =>
    obtain rfl := Except.ok.inj h
    obtain ⟨f1, f2, f3, _⟩ := fireUpdate_fields s t ev o n
    exact inv_of_fields f1 f2 f3 hs
  | remoteDelete t ev row =>
    obtain rfl := Except.ok.inj h
    obtain ⟨f1, f2, f3, _⟩ := fireDelete_fields s t ev row
    exact inv_of_fields f1 f2 f3 hs
  | teardown c =>
    obtain rfl := Except.ok.inj h
    exact inv_of_fields rfl rfl rfl hs

lemma run_ok_inv : ∀ (l : List Step) {s s' : AppState}, Inv s →
    run s l = .ok s' → Inv s' := by
  intro l
  induction l with
  | nil =>
    intro s s' hs h
    obtain rfl := Except.ok.inj h
    exact hs
  | cons a l ih =>
    intro s s' hs h
    unfold run at h
    cases he : step s a with
    | error e => rw [he] at h; simp at h
    | ok s1 => rw [he] at h; exact ih (step_ok_inv hs he) h

lemma inv_init : Inv init := by
  refine ⟨?_, ?_, ?_, ?_, ?_⟩ <;> simp [init, goodTrace]

lemma reach_inv {l : List Step} {s : AppState} (h : run init l = .ok s) :
    Inv s := run_ok_inv l inv_init h

/-- The state after registering table 0 with `TableMessages::all` from a
fresh plugin: four channels, four map entries, five callbacks. -/
def regAllState : AppState :=
  ⟨4,
   [(0, ⟨[], true⟩), (1, ⟨[], true⟩), (2, ⟨[], true⟩), (3, ⟨[], true⟩)],
   [0, 1, 2, 3],
   [(⟨0, .insert⟩, ⟨⟨0, .insert⟩, 0⟩), (⟨0, .delete⟩, ⟨⟨0, .delete⟩, 1⟩),
    (⟨0, .update⟩, ⟨⟨0, .update⟩, 2⟩),
    (⟨0, .insertUpdate⟩, ⟨⟨0, .insertUpdate⟩, 3⟩)],
   [⟨0, .sendInsert, 0⟩, ⟨0, .sendDelete, 1⟩, ⟨0, .sendUpdate, 2⟩,
    ⟨0, .sendInsUpdOld, 3⟩, ⟨0, .sendInsUpdNew, 3⟩],
   [.channelCreated 0, .receiverRegistered 0, .senderStored ⟨0, .insert⟩ 0,
    .senderObtained ⟨0, .insert⟩ 0,
    .channelCreated 1, .receiverRegistered 1, .senderStored ⟨0, .delete⟩ 1,
    .senderObtained ⟨0, .delete⟩ 1,
    .channelCreated 2, .receiverRegistered 2, .senderStored ⟨0, .update⟩ 2,
    .senderObtained ⟨0, .update⟩ 2,
    .channelCreated 3, .receiverRegistered 3,
    .senderStored ⟨0, .insertUpdate⟩ 3, .senderObtained ⟨0, .insertUpdate⟩ 3]⟩

/-- The state after registering the same table/kind combination a second
time: the channels and map entries are untouched, the five callbacks are
duplicated, and four more hand-out events appear in the trace. -/
def regAllTwiceState : AppState :=
  { regAllState with
    callbacks := regAllState.callbacks ++
      [⟨0, .sendInsert, 0⟩, ⟨0, .sendDelete, 1⟩, ⟨0, .sendUpdate, 2⟩,
       ⟨0, .sendInsUpdOld, 3⟩, ⟨0, .sendInsUpdNew, 3⟩],
    trace := regAllState.trace ++
      [.senderObtained ⟨0, .insert⟩ 0, .senderObtained ⟨0, .delete⟩ 1,
       .senderObtained ⟨0, .update⟩ 2, .senderObtained ⟨0, .insertUpdate⟩ 3] }

/-- C1: the registry's get-or-create operation (`entry(...).or_insert_with`)
returns the stored sender without invoking the construction closure when the
key is present, and when the key is absent it runs the closure exactly once
(one fresh channel, one receiver registration), stores the resulting sender
under the key, and returns it (cloning a sender is the identity in the
model). -/
theorem c1_get_or_create (s : AppState) (k : TypeKey) :
    (∀ es, findSender s.message_senders k = some es →
      getOrCreateSender s k = (s, es)) ∧
    (findSender s.message_senders k = none →
      getOrCreateSender s k =
        ({ s with
            next_chan := s.next_chan + 1,
            channels := s.channels ++ [(s.next_chan, ⟨[], true⟩)],
            app_receivers := s.app_receivers ++ [s.next_chan],
            message_senders := s.message_senders ++ [(k, ⟨k, s.next_chan⟩)],
            trace := s.trace ++
              [.channelCreated s.next_chan, .receiverRegistered s.next_chan,
               .senderStored k s.next_chan] },
          ⟨k, s.next_chan⟩) ∧
      findSender (getOrCreateSender s k).1.message_senders k =
        some ⟨k, s.next_chan⟩) := by
  constructor
  · intro es h
    exact getOrCreateSender_found h
  · intro h
    refine ⟨getOrCreateSender_missing h, ?_⟩
    rw [getOrCreateSender_missing h]
    simp only
    rw [findSender_append, h]
    simp [findSender]

/-- Witness for C1 at concrete inputs: a hit on the populated state returns
it unchanged with the stored sender; a miss on the fresh state creates and
stores channel 0. -/
theorem c1_get_or_create_witness :
    getOrCreateSender regAllState ⟨0, .insert⟩ =
      (regAllState, ⟨⟨0, .insert⟩, 0⟩) ∧
    getOrCreateSender init ⟨1, .delete⟩ =
      ({ init with
          next_chan := init.next_chan + 1,
          channels := init.channels ++ [(init.next_chan, ⟨[], true⟩)],
          app_receivers := init.app_receivers ++ [init.next_chan],
          message_senders :=
            init.message_senders ++ [(⟨1, .delete⟩, ⟨⟨1, .delete⟩, init.next_chan⟩)],
          trace := init.trace ++
            [.channelCreated init.next_chan, .receiverRegistered init.next_chan,
             .senderStored ⟨1, .delete⟩ init.next_chan] },
        ⟨⟨1, .delete⟩, init.next_chan⟩) :=
  ⟨(c1_get_or_create regAllState ⟨0, .insert⟩).1 ⟨⟨0, .insert⟩, 0⟩ (by decide),
   ((c1_get_or_create init ⟨1, .delete⟩).2 (by decide)).1⟩

/-- C7: a table callback's failed send (receiver gone) is swallowed: the
send returns `false` without modifying the state, nothing appears on a
later drain of that channel, and the remote-event step never panics
(`let _ = sender.send(message);`). -/
theorem c7_send_failure_swallowed (s : AppState) (c : Nat) (m : Msg)
    (t ev row : Nat) (h : aliveChan s c = false) :
    sendMsg s c m = (s, false) ∧
    trySend s c m = s ∧
    drainChan (trySend s c m) c = drainChan s c ∧
    step s (.remoteInsert t ev row) = .ok (fireInsert s t ev row) := by
  unfold aliveChan at h
  have hsend : sendMsg s c m = (s, false) := by
    unfold sendMsg
    cases hf : findChan s.channels c with
    | none => rfl
    | some ch =>
      rw [hf] at h
      dsimp only at h ⊢
      simp [h]
  refine ⟨hsend, ?_, ?_, rfl⟩
  · unfold trySend
    rw [hsend]
  · unfold trySend
    rw [hsend]

/-- Witness for C7: a torn-down channel with a pending producer. -/
theorem c7_send_failure_swallowed_witness :
    sendMsg ⟨1, [(0, ⟨[], false⟩)], [0], [], [], []⟩ 0 (.insertMsg 1 2) =
      (⟨1, [(0, ⟨[], false⟩)], [0], [], [], []⟩, false) :=
  (c7_send_failure_swallowed ⟨1, [(0, ⟨[], false⟩)], [0], [], [], []⟩ 0
    (.insertMsg 1 2) 0 1 2 (by decide)).1

/-- C8 counterexample: the reducer-result callback generated by
`register_reducer_message_derive` does `sender.send(...).unwrap()`, so with
the receiver torn down the callback panics instead of silently dropping the
message — the claimed best-effort policy of the table callbacks does not
hold here. -/
theorem c8_reducer_send_counterexample :
    reducer_callback
      ⟨1, [(0, ⟨[], false⟩)], [0],
       [(⟨7, .reducerResult⟩, ⟨⟨7, .reducerResult⟩, 0⟩)], [], []⟩ 0 3 5 =
      .error "called Result::unwrap on an Err value" := rfl

/-- C8 amended: the reducer-result callback performs a non-blocking send
of exactly one result message; on success the message is appended to the
channel, but a send whose receiver is gone makes the callback panic
(`unwrap`), so delivery failure is fatal to the calling thread, unlike the
table callbacks. -/
theorem c8_reducer_send_amended (s : AppState) (c : Nat) (ev payload : Nat) :
    (aliveChan s c = false →
      reducer_callback s c ev payload =
        .error "called Result::unwrap on an Err value") ∧
    (aliveChan s c = true →
      reducer_callback s c ev payload =
        .ok { s with channels := setChan s.channels c fun ch =>
          { ch with buf := ch.buf ++ [.reducerResultMsg ev payload] } }) := by
  unfold aliveChan reducer_callback sendMsg
  cases hf : findChan s.channels c with
  | none => exact ⟨fun _ => rfl, by simp⟩
  | some ch =>
    constructor
    · intro h
      dsimp only at h ⊢
      simp [h]
    · intro h
      dsimp only at h ⊢
      simp [h]

/-- Witness for C8's amended theorem: a live channel receives the result. -/
theorem c8_reducer_send_amended_witness :
    reducer_callback
      ⟨1, [(0, ⟨[], true⟩)], [0],
       [(⟨7, .reducerResult⟩, ⟨⟨7, .reducerResult⟩, 0⟩)], [], []⟩ 0 3 5 =
      .ok { (⟨1, [(0, ⟨[], true⟩)], [0],
             [(⟨7, .reducerResult⟩, ⟨⟨7, .reducerResult⟩, 0⟩)], [], []⟩ : AppState) with
        channels := setChan [(0, ⟨[], true⟩)] 0 fun ch =>
          { ch with buf := ch.buf ++ [.reducerResultMsg 3 5] } } :=
  (c8_reducer_send_amended
    ⟨1, [(0, ⟨[], true⟩)], [0],
     [(⟨7, .reducerResult⟩, ⟨⟨7, .reducerResult⟩, 0⟩)], [], []⟩ 0 3 5).2 (by decide)

/-- C9: retrieving a stored sender downcasts it to the concrete type of the
requested key; a wrong concrete type panics (`expect("Sender type
mismatch")`) instead of silently corrupting or dropping messages, and a
matching concrete type never fails and installs the callback. -/
theorem c9_downcast_loud (s : AppState) (t : Nat) (es : ErasedSender)
    (h : findSender s.message_senders ⟨t, .insert⟩ = some es) :
    (es.tag ≠ ⟨t, .insert⟩ → on_insert t s = .error "Sender type mismatch") ∧
    (es.tag = ⟨t, .insert⟩ →
      on_insert t s = .ok { s with
        trace := s.trace ++ [.senderObtained ⟨t, .insert⟩ es.chan],
        callbacks := s.callbacks ++ [⟨t, .sendInsert, es.chan⟩] }) := by
  constructor
  · intro ht
    rw [on_insert_eq_on_key]
    exact on_key_mismatch _ h ht
  · intro ht
    rw [on_insert_eq_on_key]
    simpa using on_key_found [.sendInsert] h ht

/-- Witness for C9: a registry whose stored box does not hold the requested
sender type panics; on the well-formed state the downcast succeeds. -/
theorem c9_downcast_loud_witness :
    on_insert 0 ⟨1, [(0, ⟨[], true⟩)], [0],
      [(⟨0, .insert⟩, ⟨⟨0, .delete⟩, 0⟩)], [], []⟩ =
      .error "Sender type mismatch" ∧
    on_insert 0 regAllState = .ok { regAllState with
      trace := regAllState.trace ++ [.senderObtained ⟨0, .insert⟩ 0],
      callbacks := regAllState.callbacks ++ [⟨0, .sendInsert, 0⟩] } :=
  ⟨(c9_downcast_loud ⟨1, [(0, ⟨[], true⟩)], [0],
      [(⟨0, .insert⟩, ⟨⟨0, .delete⟩, 0⟩)], [], []⟩ 0 ⟨⟨0, .delete⟩, 0⟩
      (by decide)).1 (by decide),
   (c9_downcast_loud regAllState 0 ⟨⟨0, .insert⟩, 0⟩ (by decide)).2 rfl⟩

/-- Whether an invocation came from the procedure-register list. -/
def isProcInvoke : RegInvoke → Bool
  | .procedure _ => true
  | _ => false

/-- C10: neither `Plugin::build` (immediate or delayed mode) nor
`connect_with_token` ever executes a stored procedure register: the
invocation lists contain no procedure entries for any plugin state. -/
theorem c10_procedures_never_invoked (p : PluginRegisters) :
    ((plugin_build_invokes p).countP fun r => isProcInvoke r) = 0 ∧
    ((connect_with_token_invokes (delayed_plugin_data p)).countP
      fun r => isProcInvoke r) = 0 := by
  constructor
  · unfold plugin_build_invokes
    by_cases hd : p.delayed_connect = true
    · rw [if_pos hd]; rfl
    · rw [if_neg hd]
      rw [List.countP_eq_zero]
      intro r hr
      rcases List.mem_append.mp hr with hm | hm <;>
        · rcases List.mem_map.mp hm with ⟨i, _, rfl⟩
          simp [isProcInvoke]
  · unfold connect_with_token_invokes delayed_plugin_data
    rw [List.countP_eq_zero]
    intro r hr
    rcases List.mem_append.mp hr with hm | hm <;>
      · rcases List.mem_map.mp hm with ⟨i, _, rfl⟩
        simp [isProcInvoke]

/-- C2: in every reachable state the `message_senders` map holds at most one
entry per type identifier, and executing the same table registration twice
creates no channel and no map entry the second time but appends a second
copy of exactly the callbacks the first execution appended, each pushing
into the same existing channel. -/
theorem c2_one_channel_per_type (l : List Step) (s : AppState)
    (hrun : run init l = .ok s) :
    (s.message_senders.map Prod.fst).Nodup ∧
    ∀ t m s' s'', step s (.regTable t m) = .ok s' →
      step s' (.regTable t m) = .ok s'' →
      s''.channels = s'.channels ∧
      s''.message_senders = s'.message_senders ∧
      s''.callbacks = s'.callbacks ++ s'.callbacks.drop s.callbacks.length := by
  have hs := reach_inv hrun
  refine ⟨hs.1, ?_⟩
  intro t m s' s'' h1 h2
  obtain ⟨s4, e, i4, x4, pi, pd, pu, pc, cb⟩ := register_table_inv t m s hs
  rw [show step s (.regTable t m) = register_table t m s from rfl, e] at h1
  obtain rfl := Except.ok.inj h1
  obtain ⟨s5, e2, ch2, ms2, nc2, ar2, cb2⟩ :=
    register_table_hit t m s4 i4 pi pd pu pc
  rw [show step s4 (.regTable t m) = register_table t m s4 from rfl, e2] at h2
  obtain rfl := Except.ok.inj h2
  refine ⟨ch2, ms2, ?_⟩
  rw [cb2, cb, List.drop_left]

/-- Witness for C2: registering table 0 with all messages twice from a
fresh plugin duplicates the five callbacks but reuses the four channels. -/
theorem c2_one_channel_per_type_witness :
    regAllTwiceState.channels = regAllState.channels ∧
    regAllTwiceState.message_senders = regAllState.message_senders ∧
    regAllTwiceState.callbacks = regAllState.callbacks ++
      regAllState.callbacks.drop init.callbacks.length :=
  (c2_one_channel_per_type [] init rfl).2 0 TableMessages.all
    regAllState regAllTwiceState rfl rfl

lemma drain_after_trySend {s : AppState} {c : Nat} (m : Msg)
    (hreg : c ∈ s.app_receivers) (halive : aliveChan s c = true) :
    drainChan (trySend s c m) c = drainChan s c ++ [m] := by
  unfold aliveChan at halive
  cases hf : findChan s.channels c with
  | none => rw [hf] at halive; simp at halive
  | some ch =>
    rw [hf] at halive
    dsimp only at halive
    unfold trySend sendMsg
    rw [hf]
    dsimp only
    rw [if_pos halive]
    unfold drainChan
    dsimp only
    rw [if_pos hreg, if_pos hreg, findChan_setChan_self, hf]
    simp [halive]

/-- C3: in every reachable state the trace is well ordered — a sender is
stored in the map or handed to a router only after its receiver was
registered with the host queue — and every stored sender's channel is
registered with the host, so a message sent on such a sender is observed by
a drain of that channel performed afterwards (as long as the receiver is
alive, i.e. barring consumer teardown): nothing is lost to a registration
race. -/
theorem c3_receiver_registered_before_sender (l : List Step) (s : AppState)
    (hrun : run init l = .ok s) :
    goodTrace s.trace [] ∧
    ∀ p ∈ s.message_senders, p.2.chan ∈ s.app_receivers ∧
      ∀ m, aliveChan s p.2.chan = true →
        drainChan (trySend s p.2.chan m) p.2.chan =
          drainChan s p.2.chan ++ [m] := by
  have hs := reach_inv hrun
  refine ⟨hs.2.2.2.2, ?_⟩
  intro p hp
  have hreg := hs.2.2.1 p hp
  exact ⟨hreg, fun m halive => drain_after_trySend m hreg halive⟩

/-- Witness for C3: after registering table 0 with all messages, a message
sent on the stored insert sender (channel 0) shows up in the drain. -/
theorem c3_receiver_registered_before_sender_witness :
    goodTrace regAllState.trace [] ∧
    drainChan (trySend regAllState 0 (.insertMsg 1 2)) 0 =
      drainChan regAllState 0 ++ [.insertMsg 1 2] :=
  ⟨(c3_receiver_registered_before_sender [.regTable 0 TableMessages.all]
      regAllState rfl).1,
   (((c3_receiver_registered_before_sender [.regTable 0 TableMessages.all]
      regAllState rfl).2 (⟨0, .insert⟩, ⟨⟨0, .insert⟩, 0⟩)
      (by decide)).2 (.insertMsg 1 2) (by decide))⟩

/-- C6: a table without a primary key can only have insert and delete
wired: the configuration struct has no update field, and for every
configuration the registration adds only insert/delete map entries and only
insert/delete callbacks — no update or insert-or-update channel or callback
can come into existence. -/
theorem c6_no_update_without_pk (t : Nat) (m : TableMessagesWithoutPrimaryKey)
    (s s' : AppState) (h : register_table_without_pk t m s = .ok s') :
    (∀ p ∈ s'.message_senders,
      p ∈ s.message_senders ∨ p.1.kind = .insert ∨ p.1.kind = .delete) ∧
    (∀ cb ∈ s'.callbacks,
      cb ∈ s.callbacks ∨ cb.body = .sendInsert ∨ cb.body = .sendDelete) := by
  unfold register_table_without_pk at h
  obtain ⟨s1, h1, h2⟩ := exSeq_ok_inv h
  have f1 : (∀ p ∈ s1.message_senders,
        p ∈ s.message_senders ∨ p.1.kind = .insert) ∧
      (∀ cb ∈ s1.callbacks, cb ∈ s.callbacks ∨ cb.body = .sendInsert) := by
    by_cases hmi : m.insert = true
    · rw [if_pos hmi, on_insert_without_pk_eq_on_key] at h1
      have hm := on_key_mono h1
      refine ⟨hm.1, fun cb hcb => ?_⟩
      rcases hm.2 cb hcb with hc | hc
      · exact Or.inl hc
      · simp at hc; exact Or.inr hc
    · rw [if_neg hmi] at h1
      obtain rfl := Except.ok.inj h1
      exact ⟨fun p hp => Or.inl hp, fun cb hcb => Or.inl hcb⟩
  have f2 : (∀ p ∈ s'.message_senders,
        p ∈ s1.message_senders ∨ p.1.kind = .delete) ∧
      (∀ cb ∈ s'.callbacks, cb ∈ s1.callbacks ∨ cb.body = .sendDelete) := by
    by_cases hmd : m.delete = true
    · rw [if_pos hmd, on_delete_without_pk_eq_on_key] at h2
      have hm := on_key_mono h2
      refine ⟨hm.1, fun cb hcb => ?_⟩
      rcases hm.2 cb hcb with hc | hc
      · exact Or.inl hc
      · simp at hc; exact Or.inr hc
    · rw [if_neg hmd] at h2
      obtain rfl := Except.ok.inj h2
      exact ⟨fun p hp => Or.inl hp, fun cb hcb => Or.inl hcb⟩
  constructor
  · intro p hp
    rcases f2.1 p hp with hm | hm
    · rcases f1.1 p hm with hm' | hm'
      · exact Or.inl hm'
      · exact Or.inr (Or.inl hm')
    · exact Or.inr (Or.inr hm)
  · intro cb hcb
    rcases f2.2 cb hcb with hm | hm
    · rcases f1.2 cb hm with hm' | hm'
      · exact Or.inl hm'
      · exact Or.inr (Or.inl hm')
    · exact Or.inr (Or.inr hm)

/-- Witness for C6: the all-messages no-pk registration of table 0 on a
fresh plugin wires only insert and delete. -/
theorem c6_no_update_without_pk_witness :
    (∀ p ∈ (⟨2, [(0, ⟨[], true⟩), (1, ⟨[], true⟩)], [0, 1],
        [(⟨0, .insert⟩, ⟨⟨0, .insert⟩, 0⟩), (⟨0, .delete⟩, ⟨⟨0, .delete⟩, 1⟩)],
        [⟨0, .sendInsert, 0⟩, ⟨0, .sendDelete, 1⟩],
        [.channelCreated 0, .receiverRegistered 0, .senderStored ⟨0, .insert⟩ 0,
         .senderObtained ⟨0, .insert⟩ 0, .channelCreated 1,
         .receiverRegistered 1, .senderStored ⟨0, .delete⟩ 1,
         .senderObtained ⟨0, .delete⟩ 1]⟩ : AppState).message_senders,
      p ∈ init.message_senders ∨ p.1.kind = .insert ∨ p.1.kind = .delete) ∧
    (∀ cb ∈ (⟨2, [(0, ⟨[], true⟩), (1, ⟨[], true⟩)], [0, 1],
        [(⟨0, .insert⟩, ⟨⟨0, .insert⟩, 0⟩), (⟨0, .delete⟩, ⟨⟨0, .delete⟩, 1⟩)],
        [⟨0, .sendInsert, 0⟩, ⟨0, .sendDelete, 1⟩],
        [.channelCreated 0, .receiverRegistered 0, .senderStored ⟨0, .insert⟩ 0,
         .senderObtained ⟨0, .insert⟩ 0, .channelCreated 1,
         .receiverRegistered 1, .senderStored ⟨0, .delete⟩ 1,
         .senderObtained ⟨0, .delete⟩ 1]⟩ : AppState).callbacks,
      cb ∈ init.callbacks ∨ cb.body = .sendInsert ∨ cb.body = .sendDelete) :=
  c6_no_update_without_pk 0 TableMessagesWithoutPrimaryKey.all init _ rfl

/-- C4: registering a primary-keyed table creates the insert-or-update
channel exactly when both insert and update are requested, and additively:
with both requested, the plain insert and update channels exist as well,
all three channels are distinct and live, and the plain insert and update
callbacks are installed alongside the two combined-channel callbacks. -/
theorem c4_insert_update_additive (t : Nat) (m : TableMessages)
    (s' : AppState) (h : register_table t m init = .ok s') :
    ((findSender s'.message_senders ⟨t, .insertUpdate⟩).isSome = true ↔
      (m.insert = true ∧ m.update = true)) ∧
    (m.insert = true → m.update = true →
      (findSender s'.message_senders ⟨t, .insert⟩).isSome = true ∧
      (findSender s'.message_senders ⟨t, .update⟩).isSome = true ∧
      chanAt s' t .insert ≠ chanAt s' t .update ∧
      chanAt s' t .insert ≠ chanAt s' t .insertUpdate ∧
      chanAt s' t .update ≠ chanAt s' t .insertUpdate ∧
      aliveChan s' (chanAt s' t .insert) = true ∧
      aliveChan s' (chanAt s' t .update) = true ∧
      aliveChan s' (chanAt s' t .insertUpdate) = true ∧
      (⟨t, .sendInsert, chanAt s' t .insert⟩ : Callback) ∈ s'.callbacks ∧
      (⟨t, .sendUpdate, chanAt s' t .update⟩ : Callback) ∈ s'.callbacks ∧
      (⟨t, .sendInsUpdOld, chanAt s' t .insertUpdate⟩ : Callback) ∈ s'.callbacks ∧
      (⟨t, .sendInsUpdNew, chanAt s' t .insertUpdate⟩ : Callback) ∈ s'.callbacks) := by
  rcases m with ⟨mi, mu, md⟩
  cases mi <;> cases mu <;> cases md <;>
    · simp [register_table, on_insert_eq_on_key, on_delete_eq_on_key,
        on_update_eq_on_key, on_insert_update_eq_on_key, on_key,
        getOrCreateSender, findSender, downcastSender, expectSender, exSeq,
        init] at h
      subst h
      simp [findSender, chanAt, aliveChan, findChan]

/-- Witness for C4: registering table 0 with all messages on a fresh plugin
yields the combined insert-or-update channel. -/
theorem c4_insert_update_additive_witness :
    (findSender regAllState.message_senders ⟨0, .insertUpdate⟩).isSome = true :=
  (c4_insert_update_additive 0 TableMessages.all regAllState rfl).1.mpr ⟨rfl, rfl⟩

/-- Total number of in-flight messages across all channels. -/
def msgTotal (s : AppState) : Nat :=
  (s.channels.map fun p => p.2.buf.length).sum

/-- C5: for a table registered with all kinds, one remote update with old
row `o` and new row `n` puts exactly one update message `(o, n)` and
exactly one insert-or-update message `(some o, n)` in flight and nothing
else; one remote insert of row `r` puts exactly one insert message `r` and
exactly one insert-or-update message `(none, r)` in flight and nothing
else. -/
theorem c5_fire_exactly_once (t ev o n r : Nat) (s1 : AppState)
    (h : add_table t init = .ok s1) :
    (countMsg (fireUpdate s1 t ev o n) (.updateMsg ev o n) = 1 ∧
     countMsg (fireUpdate s1 t ev o n) (.insertUpdateMsg ev (some o) n) = 1 ∧
     msgTotal (fireUpdate s1 t ev o n) = 2) ∧
    (countMsg (fireInsert s1 t ev r) (.insertMsg ev r) = 1 ∧
     countMsg (fireInsert s1 t ev r) (.insertUpdateMsg ev none r) = 1 ∧
     msgTotal (fireInsert s1 t ev r) = 2) := by
  simp [add_table, register_table, on_insert_eq_on_key, on_delete_eq_on_key,
    on_update_eq_on_key, on_insert_update_eq_on_key, on_key, getOrCreateSender,
    findSender, downcastSender, expectSender, exSeq, init,
    TableMessages.all] at h
  subst h
  simp [fireUpdate, fireInsert, msgOnUpdate, msgOnInsert, trySend, sendMsg,
    findChan, setChan, countMsg, msgTotal, List.filter]

/-- Witness for C5: firing an update `(3, 4)` on the fully registered table
yields exactly one update message and one insert-or-update message. -/
theorem c5_fire_exactly_once_witness :
    countMsg (fireUpdate regAllState 0 7 3 4) (.updateMsg 7 3 4) = 1 ∧
    countMsg (fireUpdate regAllState 0 7 3 4) (.insertUpdateMsg 7 (some 3) 4) = 1 ∧
    msgTotal (fireUpdate regAllState 0 7 3 4) = 2 :=
  (c5_fire_exactly_once 0 7 3 4 9 regAllState rfl).1

end Stdb
